import Mathlib

/-!
Verification development for the real-time synchronization layer of the
Stock-Market-Live-Data-Monitor repository.

The embedded code is the WebSocketService class of the frontend websocket
service (fields ws, listeners, reconnectAttempts, maxReconnectAttempts,
reconnectDelay and methods connect, attemptReconnect, subscribe,
unsubscribe, notifyListeners, send, disconnect, isConnected), the
updateStockData reconciler of Dashboard.jsx, and the alert queue of
AlertBar.jsx (handleAlert, removeAlert).

Handlers are callables identified only by a natural number; their
observable behaviour during an invocation is modelled by an environment
assigning to each handler identity the registry operations it performs
and whether it raises.  The invocation log of a service state records
which handlers were called, in order.  JavaScript Map iteration and
Array.prototype.forEach semantics are embedded faithfully: forEach
captures the array length once at the start and re-reads the live array
at each index, skipping indices that no longer exist.
-/

namespace StockMonitor

/-- readyState values of the underlying browser socket handle. -/
inductive ReadyState where
  | connecting
  | opened
  | closing
  | closed
deriving DecidableEq, Repr

/-- A registry mutation a subscriber callback may perform while it runs. -/
inductive RegOp where
  | sub (eventType : String) (h : Nat)
  | unsub (eventType : String) (h : Nat)
deriving DecidableEq, Repr

/-- Observable behaviour of one handler invocation: the registry
operations it performs, and whether it raises an exception. -/
structure HandlerAction where
  ops : List RegOp
  throws : Bool

/-- Environment assigning behaviour to each handler identity. -/
def Env : Type := Nat → HandlerAction

/-- State of one WebSocketService instance.  The listeners field embeds
the JS Map from event type to the ordered array of subscriber callbacks;
scheduledConnects records the delay of every reconnect timer ever
scheduled by setTimeout; sent records transmitted frames; invoked is the
cumulative log of handler invocations. -/
structure WSState where
  ws : Option ReadyState
  listeners : List (String × List Nat)
  reconnectAttempts : Nat
  maxReconnectAttempts : Nat
  reconnectDelay : Nat
  scheduledConnects : List Nat
  sent : List String
  invoked : List Nat
deriving DecidableEq, Repr

/-- Map.get, returning none when the key is absent (Map.has is
isSome of this). -/
def mapGet : List (String × List Nat) → String → Option (List Nat)
  | [], _ => none
  | (k1, v1) :: rest, k => if k1 = k then some v1 else mapGet rest k

/-- Map.set: replace the entry for the key, or append a fresh entry. -/
def mapSet : List (String × List Nat) → String → List Nat → List (String × List Nat)
  | [], k, v => [(k, v)]
  | (k1, v1) :: rest, k, v =>
      if k1 = k then (k1, v) :: rest else (k1, v1) :: mapSet rest k v

/-- subscribe(eventType, callback): create the entry if absent, then push
the callback onto the ordered array for the event type. -/
def subscribe (eventType : String) (h : Nat) (st : WSState) : WSState :=
  { st with listeners :=
      mapSet st.listeners eventType (((mapGet st.listeners eventType).getD []) ++ [h]) }

/-- Remove the first occurrence of an element (indexOf followed by
splice(index, 1); no-op when absent). -/
def removeFirst : List Nat → Nat → List Nat
  | [], _ => []
  | x :: xs, h => if x = h then xs else x :: removeFirst xs h

/-- unsubscribe(eventType, callback): remove the first reference-equal
entry for that type; no-op when the type has no entry. -/
def unsubscribe (eventType : String) (h : Nat) (st : WSState) : WSState :=
  match mapGet st.listeners eventType with
  | none => st
  | some callbacks =>
      { st with listeners := mapSet st.listeners eventType (removeFirst callbacks h) }

/-- Sequentially apply the registry operations a handler performs. -/
def runRegOps : List RegOp → WSState → WSState
  | [], st => st
  | RegOp.sub ev h :: ops, st => runRegOps ops (subscribe ev h st)
  | RegOp.unsub ev h :: ops, st => runRegOps ops (unsubscribe ev h st)

/-- Invoke one handler: record the invocation, apply its registry
operations, and report whether it raised. -/
def callHandler (env : Env) (h : Nat) (st : WSState) : WSState × Bool :=
  (runRegOps (env h).ops { st with invoked := st.invoked ++ [h] }, (env h).throws)

/-- One pass of Array.prototype.forEach over the live callback array for
an event type: len is the array length captured when forEach started, r
is the number of indices still to visit (the current index is len - r).
Each step re-reads the current array; an index at or past the current
length is skipped.  A raised exception is caught per handler (the catch
block only logs) and iteration continues. -/
def forEachFrom (env : Env) (eventType : String) (len : Nat) : Nat → WSState → WSState
  | 0, st => st
  | r + 1, st =>
      let k := len - (r + 1)
      let arr := (mapGet st.listeners eventType).getD []
      let st1 :=
        if k < arr.length then (callHandler env (arr.getD k 0) st).1 else st
      forEachFrom env eventType len r st1

/-- notifyListeners(eventType, data): if the Map has the event type,
forEach over its live callback array, catching exceptions per handler
individually.  The payload does not influence control flow and is not
modelled. -/
def notifyListeners (env : Env) (eventType : String) (st : WSState) : WSState :=
  match mapGet st.listeners eventType with
  | none => st
  | some callbacks => forEachFrom env eventType callbacks.length callbacks.length st

/-- Modelled from the spec: dispatch over a stable snapshot of the
subscriber list taken at dispatch start, so registry mutation performed
by a handler has no effect on the in-flight fan-out.  Stated only to be
compared with the notifyListeners embedding of the source. -/
def notifySnapshot (env : Env) (eventType : String) (st : WSState) : WSState :=
  match mapGet st.listeners eventType with
  | none => st
  | some callbacks => callbacks.foldl (fun s h => (callHandler env h s).1) st

/-- Environment in which every handler is pure: no registry mutation, no
exception. -/
def envPure : Env := fun _ => { ops := [], throws := false }

/-- Environment in which handler 0 unsubscribes itself from event type
e while it runs; all other handlers are pure. -/
def envSelfUnsub : Env := fun n =>
  { ops := if n = 0 then [RegOp.unsub "e" 0] else [], throws := false }

/-- Environment in which handler 1 raises an exception; every handler
performs no registry mutation. -/
def envThrow : Env := fun n => { ops := [], throws := n == 1 }

/-- A connected service state with handlers 0, 1, 2 subscribed to event
type e, no reconnect history, and an empty invocation log. -/
def stFan : WSState :=
  { ws := some ReadyState.opened
    listeners := [("e", [0, 1, 2])]
    reconnectAttempts := 0
    maxReconnectAttempts := 5
    reconnectDelay := 3000
    scheduledConnects := []
    sent := []
    invoked := [] }

/-- A connected service state with no subscriptions and no reconnect
history. -/
def stConn : WSState :=
  { ws := some ReadyState.opened
    listeners := []
    reconnectAttempts := 0
    maxReconnectAttempts := 5
    reconnectDelay := 3000
    scheduledConnects := []
    sent := []
    invoked := [] }

/-- The same state with no channel handle. -/
def stDisc : WSState :=
  { stConn with ws := none }

/-- A state in the middle of a reconnect storm: three attempts used,
three reconnect timers scheduled, one subscription live. -/
def stPending : WSState :=
  { ws := some ReadyState.opened
    listeners := [("e", [1])]
    reconnectAttempts := 3
    maxReconnectAttempts := 5
    reconnectDelay := 3000
    scheduledConnects := [3000, 3000, 3000]
    sent := []
    invoked := [] }

/-- A state whose event type e holds handler 7 exactly once (and
handler 9 after it). -/
def stSingle : WSState :=
  { stConn with listeners := [("e", [7, 9])] }

/-- isConnected(): the handle exists and its readyState is OPEN. -/
def wsIsOpen (st : WSState) : Bool :=
  match st.ws with
  | some ReadyState.opened => true
  | _ => false

/-- connect(): construct a fresh channel handle (readyState CONNECTING)
and install the lifecycle callbacks.  The open, message, error and close
callbacks themselves are embedded as the separate step functions
below. -/
def connect (st : WSState) : WSState :=
  { st with ws := some ReadyState.connecting }

/-- attemptReconnect(): if the attempt counter is below the maximum,
increment it and schedule connect() via setTimeout after the fixed
reconnect delay; otherwise log and do nothing (no exception is
raised). -/
def attemptReconnect (st : WSState) : WSState :=
  if st.reconnectAttempts < st.maxReconnectAttempts then
    { st with
        reconnectAttempts := st.reconnectAttempts + 1
        scheduledConnects := st.scheduledConnects ++ [st.reconnectDelay] }
  else st

/-- onopen callback: reset the attempt counter and dispatch a connection
envelope with status connected. -/
def onOpen (env : Env) (st : WSState) : WSState :=
  notifyListeners env "connection"
    { st with ws := some ReadyState.opened, reconnectAttempts := 0 }

/-- onclose callback: the handle is now CLOSED; dispatch a connection
envelope with status disconnected, then apply the reconnect policy. -/
def onClose (env : Env) (st : WSState) : WSState :=
  attemptReconnect (notifyListeners env "connection" { st with ws := some ReadyState.closed })

/-- One channel open failure: connect() is attempted and the channel
closes without ever opening, firing the onclose callback. -/
def openFailure (env : Env) (st : WSState) : WSState :=
  onClose env (connect st)

/-- A run of consecutive open failures. -/
def openFailures (env : Env) : Nat → WSState → WSState
  | 0, st => st
  | n + 1, st => openFailures env n (openFailure env st)

/-- An inbound text frame: it either decodes (JSON.parse, modelled
abstractly) to an envelope with the given type tag, or decoding
raises. -/
inductive Frame where
  | wellFormed (ty : String)
  | malformed
deriving DecidableEq, Repr

/-- Message Envelope Decoder: JSON.parse of the frame body, none on a
parse failure. -/
def decodeFrame : Frame → Option String
  | Frame.wellFormed t => some t
  | Frame.malformed => none

/-- onmessage callback: try to decode the frame and dispatch the
resulting envelope by its type; the catch block around the parse only
logs, leaving the state untouched. -/
def onMessage (env : Env) (f : Frame) (st : WSState) : WSState :=
  match decodeFrame f with
  | some t => notifyListeners env t st
  | none => st

/-- send(data): transmit the serialized payload only when the handle
exists and its readyState is OPEN; otherwise only log.  Both branches of
the JS function return undefined, embedded as the second (Unit)
component. -/
def send (v : String) (st : WSState) : WSState × Unit :=
  if wsIsOpen st then ({ st with sent := st.sent ++ [v] }, ()) else (st, ())

/-- disconnect(): close and drop the handle if one exists, then clear
every Registry entry.  The attempt counter and any scheduled reconnect
timers are not touched. -/
def disconnect (st : WSState) : WSState :=
  match st.ws with
  | some _ => { st with ws := none, listeners := [] }
  | none => { st with listeners := [] }

/-- A StockView as delivered by the dashboard snapshot. -/
structure StockView where
  symbol : String
  price : Int
  change : Int
  changePercent : Int
  volume : Int
  trend : String
deriving DecidableEq, Repr

/-- A stock_update payload: the symbol plus any subset of the
remaining StockView fields (none encodes an absent field, so the JS
object spread leaves the existing value in place). -/
structure StockUpdate where
  symbol : String
  price : Option Int
  change : Option Int
  changePercent : Option Int
  volume : Option Int
  trend : Option String
deriving DecidableEq, Repr

/-- The object spread of the update over an existing StockView:
every field present in the update overrides, every absent field is
preserved. -/
def mergeStock (s : StockView) (u : StockUpdate) : StockView :=
  { symbol := u.symbol
    price := u.price.getD s.price
    change := u.change.getD s.change
    changePercent := u.changePercent.getD s.changePercent
    volume := u.volume.getD s.volume
    trend := u.trend.getD s.trend }

/-- The dashboard snapshot owned by the Dashboard page. -/
structure DashboardData where
  stocks : List StockView
  summary : String
deriving DecidableEq, Repr

/-- The map in updateStockData: merge the update over every stock whose
symbol matches, leave every other stock untouched. -/
def updateStocks (u : StockUpdate) (stocks : List StockView) : List StockView :=
  stocks.map (fun s => if s.symbol = u.symbol then mergeStock s u else s)

/-- updateStockData(updatedStock): no-op while no snapshot is loaded,
otherwise rebuild the snapshot with the per-symbol merge over the
stocks list. -/
def updateStockData (u : StockUpdate) (d : Option DashboardData) : Option DashboardData :=
  match d with
  | none => none
  | some data => some { data with stocks := updateStocks u data.stocks }

/-- An Alert of the notification queue. -/
structure Alert where
  id : Nat
  symbol : String
  message : String
  createdAt : Nat
deriving DecidableEq, Repr

/-- Prepend the fresh alert and truncate to the 5 most recent
(slice(0, 5)). -/
def addAlert (a : Alert) (q : List Alert) : List Alert :=
  (a :: q).take 5

/-- removeAlert(id) and the TTL timer body alike: keep every alert whose
id differs. -/
def removeAlert (i : Nat) (q : List Alert) : List Alert :=
  q.filter (fun a => a.id != i)

/-- handleAlert(data): on an alert-class envelope, construct an Alert
whose id and timestamp are the current clock value (Date.now) and
prepend-truncate it; any other envelope type is ignored. -/
def handleAlert (now : Nat) (ty symbol message : String) (q : List Alert) : List Alert :=
  if ty = "alert" ∨ ty = "rule_alert" then
    addAlert { id := now, symbol := symbol, message := message, createdAt := now } q
  else q

/-- One observable operation on the notification queue: an alert-class
dispatch, or a removal (manual dismissal or a TTL timer firing). -/
inductive AlertOp where
  | add (a : Alert)
  | dismiss (i : Nat)

/-- Apply one queue operation. -/
def runAlertOp (q : List Alert) (op : AlertOp) : List Alert :=
  match op with
  | AlertOp.add a => addAlert a q
  | AlertOp.dismiss i => removeAlert i q

/-- Apply a sequence of queue operations in order. -/
def runAlertOps : List AlertOp → List Alert → List Alert
  | [], q => q
  | op :: ops, q => runAlertOps ops (runAlertOp q op)

/-- The alerts added by a sequence of queue operations, in order. -/
def addsOf : List AlertOp → List Alert
  | [] => []
  | AlertOp.add a :: ops => a :: addsOf ops
  | AlertOp.dismiss _ :: ops => addsOf ops

/-- Two states agree on every field of the reconnect policy. -/
def sameRetry (s t : WSState) : Prop :=
  s.reconnectAttempts = t.reconnectAttempts
  ∧ s.maxReconnectAttempts = t.maxReconnectAttempts
  ∧ s.reconnectDelay = t.reconnectDelay
  ∧ s.scheduledConnects = t.scheduledConnects

lemma sameRetry_refl (s : WSState) : sameRetry s s :=
  ⟨rfl, rfl, rfl, rfl⟩

lemma sameRetry_trans {s t u : WSState} (h1 : sameRetry s t) (h2 : sameRetry t u) :
    sameRetry s u :=
  ⟨h1.1.trans h2.1, h1.2.1.trans h2.2.1, h1.2.2.1.trans h2.2.2.1, h1.2.2.2.trans h2.2.2.2⟩

lemma subscribe_sameRetry (ev : String) (h : Nat) (st : WSState) :
    sameRetry st (subscribe ev h st) :=
  ⟨rfl, rfl, rfl, rfl⟩

lemma unsubscribe_sameRetry (ev : String) (h : Nat) (st : WSState) :
    sameRetry st (unsubscribe ev h st) := by
  unfold unsubscribe
  split
  · exact sameRetry_refl st
  · exact ⟨rfl, rfl, rfl, rfl⟩

lemma runRegOps_sameRetry (ops : List RegOp) : ∀ st : WSState, sameRetry st (runRegOps ops st) := by
  induction ops with
  | nil => intro st; exact sameRetry_refl st
  | cons op ops ih =>
      intro st
      cases op with
      | sub ev h => exact sameRetry_trans (subscribe_sameRetry ev h st) (ih _)
      | unsub ev h => exact sameRetry_trans (unsubscribe_sameRetry ev h st) (ih _)

lemma callHandler_sameRetry (env : Env) (h : Nat) (st : WSState) :
    sameRetry st (callHandler env h st).1 :=
  sameRetry_trans
    (⟨rfl, rfl, rfl, rfl⟩ : sameRetry st { st with invoked := st.invoked ++ [h] })
    (runRegOps_sameRetry _ _)

lemma forEachFrom_sameRetry (env : Env) (ev : String) (len : Nat) :
    ∀ (r : Nat) (st : WSState), sameRetry st (forEachFrom env ev len r st) := by
  intro r
  induction r with
  | zero => intro st; exact sameRetry_refl st
  | succ r ih =>
      intro st
      simp only [forEachFrom]
      split
      · exact sameRetry_trans (callHandler_sameRetry env _ st) (ih _)
      · exact ih st

lemma notifyListeners_sameRetry (env : Env) (ev : String) (st : WSState) :
    sameRetry st (notifyListeners env ev st) := by
  unfold notifyListeners
  split
  · exact sameRetry_refl st
  · exact forEachFrom_sameRetry env ev _ _ st

lemma openFailure_retry (env : Env) (st : WSState) :
    (st.reconnectAttempts < st.maxReconnectAttempts →
      (openFailure env st).reconnectAttempts = st.reconnectAttempts + 1
      ∧ (openFailure env st).scheduledConnects = st.scheduledConnects ++ [st.reconnectDelay])
  ∧ (st.maxReconnectAttempts ≤ st.reconnectAttempts →
      (openFailure env st).reconnectAttempts = st.reconnectAttempts
      ∧ (openFailure env st).scheduledConnects = st.scheduledConnects)
  ∧ (openFailure env st).maxReconnectAttempts = st.maxReconnectAttempts
  ∧ (openFailure env st).reconnectDelay = st.reconnectDelay := by
  have h := notifyListeners_sameRetry env "connection" { st with ws := some ReadyState.closed }
  have ha : st.reconnectAttempts
      = (notifyListeners env "connection" { st with ws := some ReadyState.closed }).reconnectAttempts := h.1
  have hm : st.maxReconnectAttempts
      = (notifyListeners env "connection" { st with ws := some ReadyState.closed }).maxReconnectAttempts := h.2.1
  have hd : st.reconnectDelay
      = (notifyListeners env "connection" { st with ws := some ReadyState.closed }).reconnectDelay := h.2.2.1
  have hs : st.scheduledConnects
      = (notifyListeners env "connection" { st with ws := some ReadyState.closed }).scheduledConnects := h.2.2.2
  have hE : openFailure env st
      = attemptReconnect (notifyListeners env "connection" { st with ws := some ReadyState.closed }) := rfl
  rw [hE]
  unfold attemptReconnect
  by_cases hc : st.reconnectAttempts < st.maxReconnectAttempts
  · rw [if_pos (by rw [← ha, ← hm]; exact hc)]
    refine ⟨fun _ => ⟨?_, ?_⟩, fun hge => absurd hc (by omega), ?_, ?_⟩
    · exact congrArg (fun x => x + 1) ha.symm
    · show (notifyListeners env "connection" { st with ws := some ReadyState.closed }).scheduledConnects
          ++ [(notifyListeners env "connection" { st with ws := some ReadyState.closed }).reconnectDelay]
        = st.scheduledConnects ++ [st.reconnectDelay]
      rw [← hs, ← hd]
    · exact hm.symm
    · exact hd.symm
  · rw [if_neg (by rw [← ha, ← hm]; exact hc)]
    exact ⟨fun hlt => absurd hlt hc, fun _ => ⟨ha.symm, hs.symm⟩, hm.symm, hd.symm⟩

lemma openFailures_sched (env : Env) : ∀ (n : Nat) (st : WSState),
    st.reconnectAttempts ≤ st.maxReconnectAttempts →
      (openFailures env n st).scheduledConnects
        = st.scheduledConnects
          ++ List.replicate (min n (st.maxReconnectAttempts - st.reconnectAttempts)) st.reconnectDelay := by
  intro n
  induction n with
  | zero =>
      intro st _
      simp [openFailures]
  | succ n ih =>
      intro st hle
      have hr := openFailure_retry env st
      by_cases hc : st.reconnectAttempts < st.maxReconnectAttempts
      · obtain ⟨hra, hsc⟩ := hr.1 hc
        have hmax := hr.2.2.1
        have hdel := hr.2.2.2
        have hle2 : (openFailure env st).reconnectAttempts ≤ (openFailure env st).maxReconnectAttempts := by
          rw [hra, hmax]; omega
        have hstep : openFailures env (n + 1) st = openFailures env n (openFailure env st) := rfl
        rw [hstep, ih (openFailure env st) hle2, hra, hsc, hmax, hdel]
        have hmin : min n (st.maxReconnectAttempts - (st.reconnectAttempts + 1)) + 1
            = min (n + 1) (st.maxReconnectAttempts - st.reconnectAttempts) := by omega
        rw [List.append_assoc]
        congr 1
        rw [← hmin, List.replicate_succ]
        rfl
      · obtain ⟨hra, hsc⟩ := hr.2.1 (by omega)
        have hmax := hr.2.2.1
        have hle2 : (openFailure env st).reconnectAttempts ≤ (openFailure env st).maxReconnectAttempts := by
          rw [hra, hmax]; omega
        have hstep : openFailures env (n + 1) st = openFailures env n (openFailure env st) := rfl
        rw [hstep, ih (openFailure env st) hle2, hra, hsc, hmax, hr.2.2.2]
        have h0 : st.maxReconnectAttempts - st.reconnectAttempts = 0 := by omega
        simp [h0]

lemma notifyListeners_none (env : Env) (ev : String) (st : WSState)
    (hl : mapGet st.listeners ev = none) : notifyListeners env ev st = st := by
  unfold notifyListeners
  rw [hl]

lemma notifyListeners_some (env : Env) (ev : String) (st : WSState) (l : List Nat)
    (hl : mapGet st.listeners ev = some l) :
    notifyListeners env ev st = forEachFrom env ev l.length l.length st := by
  unfold notifyListeners
  rw [hl]

lemma unsubscribe_some (ev : String) (h : Nat) (st : WSState) (l : List Nat)
    (hl : mapGet st.listeners ev = some l) :
    unsubscribe ev h st = { st with listeners := mapSet st.listeners ev (removeFirst l h) } := by
  unfold unsubscribe
  rw [hl]

lemma callHandler_pure (env : Env) (h : Nat) (st : WSState) (hp : (env h).ops = []) :
    (callHandler env h st).1 = { st with invoked := st.invoked ++ [h] } := by
  unfold callHandler
  rw [hp]
  rfl

lemma forEachFrom_pure (env : Env) (ev : String) (l : List Nat)
    (hpure : ∀ n, (env n).ops = []) :
    ∀ (r : Nat) (st : WSState), r ≤ l.length → mapGet st.listeners ev = some l →
      forEachFrom env ev l.length r st
        = { st with invoked := st.invoked ++ l.drop (l.length - r) } := by
  intro r
  induction r with
  | zero =>
      intro st _ _
      simp [forEachFrom]
  | succ r ih =>
      intro st hr hl
      have hk : l.length - (r + 1) < l.length := by omega
      simp only [forEachFrom, hl, Option.getD_some]
      rw [if_pos hk]
      rw [callHandler_pure env _ _ (hpure _)]
      rw [ih { st with invoked := st.invoked ++ [l.getD (l.length - (r + 1)) 0] } (by omega) hl]
      have harith : l.length - (r + 1) + 1 = l.length - r := by omega
      rw [List.getD_eq_getElem l 0 hk, List.drop_eq_getElem_cons hk, harith, List.append_cons]
      simp

lemma notifyListeners_pure (env : Env) (ev : String) (st : WSState) (l : List Nat)
    (hpure : ∀ n, (env n).ops = []) (hl : mapGet st.listeners ev = some l) :
    notifyListeners env ev st = { st with invoked := st.invoked ++ l } := by
  rw [notifyListeners_some env ev st l hl]
  rw [forEachFrom_pure env ev l hpure l.length st (Nat.le_refl _) hl]
  simp

lemma callHandler_ops_eq (env1 env2 : Env) (h : Nat) (st : WSState)
    (hops : (env1 h).ops = (env2 h).ops) :
    (callHandler env1 h st).1 = (callHandler env2 h st).1 := by
  unfold callHandler
  rw [hops]

lemma forEachFrom_throws_indep (env1 env2 : Env) (hops : ∀ n, (env1 n).ops = (env2 n).ops)
    (ev : String) (len : Nat) :
    ∀ (r : Nat) (st : WSState), forEachFrom env1 ev len r st = forEachFrom env2 ev len r st := by
  intro r
  induction r with
  | zero => intro st; rfl
  | succ r ih =>
      intro st
      simp only [forEachFrom]
      by_cases hk : len - (r + 1) < ((mapGet st.listeners ev).getD []).length
      · rw [if_pos hk, if_pos hk, callHandler_ops_eq env1 env2 _ _ (hops _)]
        exact ih _
      · rw [if_neg hk, if_neg hk]
        exact ih st

lemma notifyListeners_throws_indep (env1 env2 : Env)
    (hops : ∀ n, (env1 n).ops = (env2 n).ops) (ev : String) (st : WSState) :
    notifyListeners env1 ev st = notifyListeners env2 ev st := by
  cases hl : mapGet st.listeners ev with
  | none => rw [notifyListeners_none env1 ev st hl, notifyListeners_none env2 ev st hl]
  | some l =>
      rw [notifyListeners_some env1 ev st l hl, notifyListeners_some env2 ev st l hl]
      exact forEachFrom_throws_indep env1 env2 hops ev l.length l.length st

lemma mapGet_mapSet_self (m : List (String × List Nat)) (k : String) (v : List Nat) :
    mapGet (mapSet m k v) k = some v := by
  induction m with
  | nil => simp [mapSet, mapGet]
  | cons p rest ih =>
      obtain ⟨k1, v1⟩ := p
      by_cases h : k1 = k
      · simp [mapSet, mapGet, h]
      · simp [mapSet, mapGet, h, ih]

lemma not_mem_removeFirst (l : List Nat) (h : Nat) (hc : List.count h l ≤ 1) :
    h ∉ removeFirst l h := by
  induction l with
  | nil => intro hmem; simp [removeFirst] at hmem
  | cons x xs ih =>
      by_cases hx : x = h
      · subst hx
        have h1 : List.count x (x :: xs) = List.count x xs + 1 := List.count_cons_self x xs
        have h0 : List.count x xs = 0 := by omega
        have hnm : x ∉ xs := List.count_eq_zero.mp h0
        simpa [removeFirst] using hnm
      · have h1 : List.count h (x :: xs) = List.count h xs :=
          List.count_cons_of_ne (fun he => hx he.symm) xs
        have hih := ih (by omega)
        intro hmem
        rw [removeFirst, if_neg hx] at hmem
        rcases List.mem_cons.mp hmem with hE | hH
        · exact hx hE.symm
        · exact hih hH

lemma runAlertOps_length_le (ops : List AlertOp) :
    ∀ q : List Alert, q.length ≤ 5 → (runAlertOps ops q).length ≤ 5 := by
  induction ops with
  | nil => intro q hq; exact hq
  | cons op ops ih =>
      intro q hq
      have h1 : (runAlertOp q op).length ≤ 5 := by
        cases op with
        | add a =>
            simp [runAlertOp, addAlert, List.length_take]
        | dismiss i =>
            have h2 := List.length_filter_le (fun a => a.id != i) q
            simp only [runAlertOp, removeAlert]
            omega
      exact ih _ h1

lemma runAlertOps_sublist (ops : List AlertOp) :
    ∀ q r : List Alert, q.Sublist r →
      (runAlertOps ops q).Sublist ((addsOf ops).reverse ++ r) := by
  induction ops with
  | nil =>
      intro q r h
      simpa [runAlertOps, addsOf] using h
  | cons op ops ih =>
      intro q r h
      cases op with
      | add a =>
          have h1 : (addAlert a q).Sublist (a :: r) :=
            (List.take_sublist 5 (a :: q)).trans (h.cons₂ a)
          have h2 := ih (addAlert a q) (a :: r) h1
          have hE : runAlertOps (AlertOp.add a :: ops) q = runAlertOps ops (addAlert a q) := rfl
          rw [hE]
          have hA : (addsOf (AlertOp.add a :: ops)).reverse ++ r
              = (addsOf ops).reverse ++ (a :: r) := by
            simp [addsOf, List.reverse_cons, List.append_assoc]
          rw [hA]
          exact h2
      | dismiss i =>
          have h1 : (removeAlert i q).Sublist r := (List.filter_sublist q).trans h
          exact ih (removeAlert i q) r h1

lemma take_five_append (l x : List Alert) :
    (l ++ x.take 5).take 5 = (l ++ x).take 5 := by
  rw [List.take_append_eq_append_take, List.take_append_eq_append_take, List.take_take]
  congr 1
  exact congrArg (fun n => List.take n x) (Nat.min_eq_left (Nat.sub_le 5 l.length))

lemma runAlertOps_adds (as : List Alert) :
    ∀ q : List Alert, q.length ≤ 5 →
      runAlertOps (as.map AlertOp.add) q = (as.reverse ++ q).take 5 := by
  induction as with
  | nil =>
      intro q hq
      simpa [runAlertOps] using (List.take_of_length_le hq).symm
  | cons a as ih =>
      intro q hq
      have hlen : (addAlert a q).length ≤ 5 := by
        simp [addAlert, List.length_take]
      have hE : runAlertOps ((a :: as).map AlertOp.add) q
          = runAlertOps (as.map AlertOp.add) (addAlert a q) := rfl
      rw [hE, ih (addAlert a q) hlen]
      show (as.reverse ++ (a :: q).take 5).take 5 = ((a :: as).reverse ++ q).take 5
      rw [take_five_append, List.reverse_cons, List.append_assoc]
      rfl

lemma length_filter_id_split (i : Nat) (q : List Alert) :
    (q.filter (fun a => a.id == i)).length + (q.filter (fun a => a.id != i)).length = q.length := by
  induction q with
  | nil => rfl
  | cons a t ih =>
      by_cases h : a.id = i
      · simp [List.filter_cons, h]
        omega
      · simp [List.filter_cons, h]
        omega

/-- C1, counterexample.  notifyListeners iterates the live callback
array, not a stable snapshot: with handlers 0, 1, 2 subscribed to event
type e and handler 0 unsubscribing itself during its own invocation,
the dispatch invokes only handlers 0 and 2, skipping handler 1 even
though it was subscribed when the dispatch started; the spec-modelled
snapshot dispatch invokes all three.  This refutes the claim that a
handler unsubscribing during its own invocation has no effect on the
in-flight fan-out. -/
theorem dispatch_live_iteration_cex :
    mapGet stFan.listeners "e" = some [0, 1, 2]
  ∧ (notifyListeners envSelfUnsub "e" stFan).invoked = [0, 2]
  ∧ (notifySnapshot envSelfUnsub "e" stFan).invoked = [0, 1, 2] := by
  decide

/-- C1, amended.  dispatch(eventType, data) invokes each handler
subscribed to the event type exactly once, in subscription order, as
long as no handler mutates the registry during the dispatch; the
iteration is over the live handler list, so a handler that subscribes
or unsubscribes during its own invocation can change which handlers run
in the in-flight fan-out. -/
theorem dispatch_in_order_when_unmutated (env : Env) (ev : String) (st : WSState)
    (l : List Nat) (hpure : ∀ n, (env n).ops = [] ∧ (env n).throws = false)
    (hl : mapGet st.listeners ev = some l) :
    notifyListeners env ev st = { st with invoked := st.invoked ++ l } :=
  notifyListeners_pure env ev st l (fun n => (hpure n).1) hl

/-- Witness for the amended C1 at a concrete three-handler registry. -/
theorem dispatch_in_order_when_unmutated_witness :
    (notifyListeners envPure "e" stFan).invoked = [0, 1, 2] := by
  rw [dispatch_in_order_when_unmutated envPure "e" stFan [0, 1, 2]
    (fun n => ⟨rfl, rfl⟩) (by decide)]
  decide

/-- C2.  Over any run of consecutive open failures the Connection
Manager schedules exactly min n maxReconnectAttempts reconnect
attempts, each after the fixed 3000 ms delay: never more than 5, and a
run of 5 or more failures schedules exactly 5, so no 6th attempt ever
occurs; attemptReconnect is a total function, so no exception is
thrown. -/
theorem reconnect_attempts_capped (env : Env) (st : WSState) (n : Nat)
    (h0 : st.reconnectAttempts = 0) (hm : st.maxReconnectAttempts = 5)
    (hd : st.reconnectDelay = 3000) (hs : st.scheduledConnects = []) :
    (openFailures env n st).scheduledConnects = List.replicate (min n 5) 3000
  ∧ (openFailures env n st).scheduledConnects.length ≤ 5
  ∧ (5 ≤ n → (openFailures env n st).scheduledConnects.length = 5) := by
  have h := openFailures_sched env n st (by omega)
  rw [h0, hm, hd, hs] at h
  have h2 : (openFailures env n st).scheduledConnects = List.replicate (min n 5) 3000 := by
    simpa using h
  refine ⟨h2, ?_, ?_⟩
  · rw [h2, List.length_replicate]
    omega
  · intro h5
    rw [h2, List.length_replicate]
    omega

/-- Witness for C2: seven consecutive open failures schedule exactly
five reconnects at 3000 ms each. -/
theorem reconnect_attempts_capped_witness :
    (openFailures envPure 7 stConn).scheduledConnects = List.replicate 5 3000 := by
  have h := (reconnect_attempts_capped envPure stConn 7 rfl rfl rfl rfl).1
  have hmin : min 7 5 = 5 := by decide
  rw [h, hmin]

/-- C3, counterexample.  disconnect() does not reset the reconnect
attempt counter and does not cancel pending reconnect timers: from a
state with 3 attempts used and 3 scheduled reconnects, both survive the
disconnect unchanged, refuting the reset-and-stop part of the claim. -/
theorem disconnect_no_reset_cex :
    (disconnect stPending).reconnectAttempts = 3
  ∧ (disconnect stPending).reconnectAttempts ≠ 0
  ∧ (disconnect stPending).scheduledConnects = [3000, 3000, 3000] := by
  decide

/-- C3, amended.  disconnect() drops the channel handle if one exists
and clears every Registry entry; it is idempotent, and any dispatch
after it invokes no handler.  It does not reset the reconnect attempt
counter and does not cancel a pending reconnect. -/
theorem disconnect_clears_registry (st : WSState) (env : Env) (ev : String) :
    (disconnect st).listeners = [] ∧ (disconnect st).ws = none
  ∧ disconnect (disconnect st) = disconnect st
  ∧ notifyListeners env ev (disconnect st) = disconnect st := by
  obtain ⟨w, ls, ra, mra, rd, sc, sn, iv⟩ := st
  cases w <;> exact ⟨rfl, rfl, rfl, notifyListeners_none _ _ _ rfl⟩

/-- C4.  A stock_update merges field-by-field over every stock whose
symbol matches (fields absent from the update are preserved, present
fields override), leaves every other stock untouched, leaves the whole
snapshot unchanged when no stock matches (no new entry is created), and
is a no-op while no snapshot is loaded. -/
theorem stock_update_reconciles (u : StockUpdate) (d : DashboardData) :
    ((∀ s ∈ d.stocks, s.symbol ≠ u.symbol) → updateStockData u (some d) = some d)
  ∧ (updateStocks u d.stocks).length = d.stocks.length
  ∧ (∀ (i : Nat) (hi : i < d.stocks.length) (hi2 : i < (updateStocks u d.stocks).length),
        (updateStocks u d.stocks)[i]
          = if (d.stocks[i]).symbol = u.symbol then mergeStock (d.stocks[i]) u
            else d.stocks[i])
  ∧ (∀ s : StockView,
        (u.price = none → (mergeStock s u).price = s.price)
      ∧ (u.change = none → (mergeStock s u).change = s.change)
      ∧ (u.changePercent = none → (mergeStock s u).changePercent = s.changePercent)
      ∧ (u.volume = none → (mergeStock s u).volume = s.volume)
      ∧ (u.trend = none → (mergeStock s u).trend = s.trend)
      ∧ (∀ p : Int, u.price = some p → (mergeStock s u).price = p))
  ∧ updateStockData u none = none := by
  refine ⟨?_, ?_, ?_, ?_, rfl⟩
  · intro hno
    have hE : updateStockData u (some d) = some { d with stocks := updateStocks u d.stocks } := rfl
    rw [hE]
    unfold updateStocks
    have h1 : d.stocks.map (fun s => if s.symbol = u.symbol then mergeStock s u else s)
        = d.stocks.map id := List.map_congr_left (fun s hs => if_neg (hno s hs))
    rw [h1, List.map_id]
  · simp [updateStocks]
  · intro i hi hi2
    simp [updateStocks]
  · intro s
    refine ⟨?_, ?_, ?_, ?_, ?_, ?_⟩
    · intro h; simp [mergeStock, h]
    · intro h; simp [mergeStock, h]
    · intro h; simp [mergeStock, h]
    · intro h; simp [mergeStock, h]
    · intro h; simp [mergeStock, h]
    · intro p h; simp [mergeStock, h]

/-- The AAPL StockView of the worked example in the spec. -/
def viewAAPL : StockView :=
  { symbol := "AAPL", price := 100, change := 0, changePercent := 0,
    volume := 1000, trend := "flat" }

/-- Snapshot holding only AAPL. -/
def dashAAPL : DashboardData :=
  { stocks := [viewAAPL], summary := "s" }

/-- The update of the worked example in the spec: price 105 for AAPL, every
other field absent. -/
def updAAPL : StockUpdate :=
  { symbol := "AAPL", price := some 105, change := none, changePercent := none,
    volume := none, trend := none }

/-- An update for a symbol absent from the snapshot. -/
def updZZZZ : StockUpdate :=
  { symbol := "ZZZZ", price := some 50, change := none, changePercent := none,
    volume := none, trend := none }

/-- Witness for C4 at the worked example of the spec: the unknown symbol
leaves the snapshot unchanged, and the AAPL update yields price 105
with volume 1000 preserved. -/
theorem stock_update_reconciles_witness :
    updateStockData updZZZZ (some dashAAPL) = some dashAAPL
  ∧ updateStockData updAAPL (some dashAAPL)
      = some { dashAAPL with stocks := [{ viewAAPL with price := 105 }] } :=
  ⟨(stock_update_reconciles updZZZZ dashAAPL).1 (by decide), by decide⟩

/-- C5, counterexample.  Subscribing the same handler twice (the spec
calls the duplicate intentional) defeats a single unsubscribe: after
subscribe, subscribe, unsubscribe for handler 7, a dispatch still
invokes handler 7, refuting the claim for every prior sequence of
subscribe calls. -/
theorem unsubscribe_duplicate_cex :
    7 ∈ (notifyListeners envPure "e"
      (unsubscribe "e" 7 (subscribe "e" 7 (subscribe "e" 7 stDisc)))).invoked := by
  decide

/-- C5, amended.  unsubscribe removes only the first matching entry, so
the guarantee holds when the handler occurs at most once in the list
for the event type: after unsubscribe it is absent from the list, and a
dispatch in which no handler mutates the registry never invokes it. -/
theorem unsubscribe_single_then_dispatch (env : Env) (ev : String) (h : Nat)
    (st : WSState) (l : List Nat) (hpure : ∀ n, (env n).ops = [])
    (hl : mapGet st.listeners ev = some l) (hcount : List.count h l ≤ 1) :
    (notifyListeners env ev (unsubscribe ev h st)).invoked = st.invoked ++ removeFirst l h
  ∧ h ∉ removeFirst l h := by
  have hu := unsubscribe_some ev h st l hl
  have hget : mapGet (unsubscribe ev h st).listeners ev = some (removeFirst l h) := by
    rw [hu]
    exact mapGet_mapSet_self st.listeners ev (removeFirst l h)
  have hn := notifyListeners_pure env ev (unsubscribe ev h st) (removeFirst l h) hpure hget
  constructor
  · rw [hn, hu]
  · exact not_mem_removeFirst l h hcount

/-- Witness for the amended C5: with handler 7 subscribed once (next to
handler 9), unsubscribe then dispatch invokes only handler 9. -/
theorem unsubscribe_single_then_dispatch_witness :
    (notifyListeners envPure "e" (unsubscribe "e" 7 stSingle)).invoked = [9]
  ∧ 7 ∉ removeFirst [7, 9] 7 := by
  have h := unsubscribe_single_then_dispatch envPure "e" 7 stSingle [7, 9]
    (fun n => rfl) (by decide) (by decide)
  refine ⟨?_, h.2⟩
  rw [h.1]
  decide

/-- C6.  Handler failures are isolated per handler inside dispatch: the
result of notifyListeners is completely independent of which handlers
throw (so a throwing handler never prevents the remaining handlers from
running), and even with arbitrary throws every subscribed handler is
still invoked exactly once in order; the embedded per-handler catch
makes notifyListeners a total function, so no exception reaches the
caller. -/
theorem dispatch_fault_isolation (env1 env2 : Env) (ev : String) (st : WSState)
    (hops : ∀ n, (env1 n).ops = (env2 n).ops) :
    notifyListeners env1 ev st = notifyListeners env2 ev st
  ∧ (∀ l, (∀ n, (env1 n).ops = []) → mapGet st.listeners ev = some l →
      (notifyListeners env1 ev st).invoked = st.invoked ++ l) := by
  constructor
  · exact notifyListeners_throws_indep env1 env2 hops ev st
  · intro l hp hl
    rw [notifyListeners_pure env1 ev st l hp hl]

/-- Witness for C6: handler 1 throws, yet the dispatch equals the
throw-free dispatch and all of handlers 0, 1, 2 run. -/
theorem dispatch_fault_isolation_witness :
    notifyListeners envThrow "e" stFan = notifyListeners envPure "e" stFan
  ∧ (notifyListeners envThrow "e" stFan).invoked = [0, 1, 2] := by
  have h := dispatch_fault_isolation envThrow envPure "e" stFan (fun n => rfl)
  refine ⟨h.1, ?_⟩
  rw [h.2 [0, 1, 2] (fun n => rfl) (by decide)]
  decide

/-- C7.  A frame whose payload fails to decode is dropped inside the
message handler: the state (channel handle included) is bitwise
unchanged, nothing is dispatched, and the embedded catch makes the
handler total, so nothing is thrown; a subsequent well-formed frame is
decoded and dispatched exactly as it would have been without the
malformed frame. -/
theorem malformed_frame_dropped (env : Env) (st : WSState) (f : Frame) (t : String)
    (hf : decodeFrame f = none) :
    onMessage env f st = st
  ∧ onMessage env (Frame.wellFormed t) (onMessage env f st)
      = onMessage env (Frame.wellFormed t) st
  ∧ onMessage env (Frame.wellFormed t) st = notifyListeners env t st := by
  have h1 : onMessage env f st = st := by
    unfold onMessage
    rw [hf]
  exact ⟨h1, by rw [h1], rfl⟩

/-- Witness for C7: a malformed frame leaves the three-handler state
untouched and the following well-formed frame still fans out to
handlers 0, 1, 2. -/
theorem malformed_frame_dropped_witness :
    onMessage envPure Frame.malformed stFan = stFan
  ∧ (onMessage envPure (Frame.wellFormed "e")
      (onMessage envPure Frame.malformed stFan)).invoked = [0, 1, 2] := by
  have h := malformed_frame_dropped envPure stFan Frame.malformed "e" rfl
  exact ⟨h.1, by decide⟩

/-- C8, counterexample.  send returns the same value (undefined,
embedded as Unit) whether the channel is open or not, so the caller
receives no explicit failure signal from the return; only the behaviour
differs (transmission when open, bitwise no-op when not).  This refutes
the claim that a failed send returns an explicit failure signal to the
caller. -/
theorem send_no_failure_signal_cex :
    (send "x" stConn).2 = (send "x" stDisc).2
  ∧ (send "x" stConn).1.sent = ["x"]
  ∧ (send "x" stDisc).1 = stDisc := by
  decide

/-- C8, amended.  send transmits the payload exactly when the channel
handle exists with readyState OPEN; otherwise the state is completely
unchanged (nothing transmitted, nothing queued) and, send being a total
function, nothing is thrown — but the return value is identical to a
return of a successful send, so failure is signalled only by the console log, not
to the caller. -/
theorem send_only_when_open (v : String) (st : WSState) :
    (wsIsOpen st = true → (send v st).1 = { st with sent := st.sent ++ [v] })
  ∧ (wsIsOpen st = false → (send v st).1 = st)
  ∧ (send v st).1.listeners = st.listeners
  ∧ (send v st).1.ws = st.ws
  ∧ (send v st).2 = (send v stConn).2 := by
  by_cases h : wsIsOpen st = true
  · simp [send, h]
  · have hf : wsIsOpen st = false := by simpa using h
    simp [send, hf]

/-- Witness for the amended C8: sending on a disconnected state is a
bitwise no-op. -/
theorem send_only_when_open_witness :
    (send "y" stDisc).1 = stDisc :=
  (send_only_when_open "y" stDisc).2.1 (by decide)

/-- C9.  Starting from an empty queue, after any sequence of alert
additions and removals (dismissals or TTL firings) the notification
queue holds at most 5 alerts and is a subsequence of the reversed
addition order, hence ordered newest-first; with additions only, the
queue is exactly the 5 most recent alerts newest-first — in particular
7 distinct alerts leave exactly the last 5 and drop the 2 oldest. -/
theorem alert_queue_bounded_newest_first (ops : List AlertOp) :
    (runAlertOps ops []).length ≤ 5
  ∧ (runAlertOps ops []).Sublist (addsOf ops).reverse
  ∧ (∀ as : List Alert, runAlertOps (as.map AlertOp.add) [] = as.reverse.take 5) := by
  refine ⟨runAlertOps_length_le ops [] (by simp), ?_, ?_⟩
  · simpa using runAlertOps_sublist ops [] [] (List.Sublist.refl [])
  · intro as
    simpa using runAlertOps_adds as [] (by simp)

/-- Two alert-class dispatches handled at the same Date.now tick. -/
def qSameTick : List Alert :=
  handleAlert 1000 "alert" "B" "m2" (handleAlert 1000 "alert" "A" "m1" [])

/-- C10, counterexample.  Alert ids are Date.now values, so two alerts
created at the same clock tick share an id, and removal keyed by that
id removes both of them — not exactly one.  This refutes both the
freshness of ids at equal clock times and the exactly-one removal. -/
theorem alert_id_collision_cex :
    qSameTick.length = 2
  ∧ (∀ a ∈ qSameTick, a.id = 1000)
  ∧ removeAlert 1000 qSameTick = [] := by
  decide

/-- C10, amended.  The id of an Alert is the creation-time clock value, so
alerts created at distinct clock times have distinct ids; removal by id
removes exactly the alerts carrying that id — exactly one when the id
occurs once in the queue — and never touches an alert with a different
id. -/
theorem alert_id_clock (now1 now2 : Nat) (s1 m1 s2 m2 : String)
    (q : List Alert) (i : Nat) :
    (now1 ≠ now2 →
      ((handleAlert now2 "alert" s2 m2 (handleAlert now1 "alert" s1 m1 [])).map Alert.id).Nodup)
  ∧ ((q.filter (fun a => a.id == i)).length = 1 →
      (removeAlert i q).length + 1 = q.length)
  ∧ (∀ a ∈ q, a.id ≠ i → a ∈ removeAlert i q)
  ∧ (∀ a ∈ removeAlert i q, a.id ≠ i) := by
  refine ⟨?_, ?_, ?_, ?_⟩
  · intro hne
    have hq : (handleAlert now2 "alert" s2 m2 (handleAlert now1 "alert" s1 m1 [])).map Alert.id
        = [now2, now1] := by
      simp [handleAlert, addAlert]
    rw [hq]
    simp [Ne.symm hne]
  · intro h1
    have hsplit := length_filter_id_split i q
    simp only [removeAlert]
    omega
  · intro a ha hne
    simp only [removeAlert, List.mem_filter]
    exact ⟨ha, by simpa [bne_iff_ne] using hne⟩
  · intro a ha
    have := (List.mem_filter.mp ha).2
    simpa [bne_iff_ne] using this

/-- A queue in which id 5 occurs exactly once. -/
def qTwoIds : List Alert :=
  [{ id := 5, symbol := "A", message := "m", createdAt := 5 },
   { id := 7, symbol := "B", message := "n", createdAt := 7 }]

/-- Witness for the amended C10: alerts created at ticks 1 and 2 get
distinct ids, and removing id 5 from a queue containing it once shrinks
the queue by exactly one. -/
theorem alert_id_clock_witness :
    ((handleAlert 2 "alert" "B" "m2" (handleAlert 1 "alert" "A" "m1" [])).map Alert.id).Nodup
  ∧ (removeAlert 5 qTwoIds).length + 1 = qTwoIds.length :=
  ⟨(alert_id_clock 1 2 "A" "m1" "B" "m2" qTwoIds 5).1 (by decide),
   (alert_id_clock 1 2 "A" "m1" "B" "m2" qTwoIds 5).2.1 (by decide)⟩

end StockMonitor
